import Mathlib

/-!
Verification of the vall-e-encodec repository's token bookkeeping utilities.

Each definition below is a shallow embedding of a function of the repository:
Python lists of token ids become Lean `List Int` (or `List Nat` where the
source only ever holds tokenizer ids), Python dictionaries and JSON files
become association lists, and the fallible external calls (the hosted
chat-completion API) become an `Except`-valued parameter.  The pretrained
models and tokenizers are third-party black boxes; they are abstracted as
parameters, while every piece of logic the repository itself implements
(padding, masking, id-offset arithmetic, argmax masking, the caching and
error-handling control flow) is translated directly from the source.
-/

/-- Embeds `pad_sequences` from `trainer_encodec_tts_nar_full.py` and
`trainer_encodec_vc_inference.py` (identical in both):
`[sequence + [padding_value] * (max_length - len(sequence)) for sequence in sequences]`.
Python's list repetition with a negative count yields the empty list, which
matches Lean's truncating `Nat` subtraction. -/
def pad_sequences (sequences : List (List Int)) (max_length : Nat) (padding_value : Int) :
    List (List Int) :=
  sequences.map (fun sequence => sequence ++ List.replicate (max_length - sequence.length) padding_value)

/-- Embeds `get_attention_mask` from `trainer_encodec_vc_inference.py`:
`[1] * seq_length + [0] * (max_length - seq_length)`. -/
def get_attention_mask (seq_length max_length : Nat) : List Nat :=
  List.replicate seq_length 1 ++ List.replicate (max_length - seq_length) 0

/-- Embeds `get_attention_mask` from `trainer_encodec_tts_nar_full.py`, which takes
the sequence itself: `[1] * len(sequence) + [0] * (max_length - len(sequence))`. -/
def get_attention_mask_of_seq (sequence : List Int) (max_length : Nat) : List Nat :=
  get_attention_mask sequence.length max_length

/-- Embeds `pad_sequences_and_create_masks` from `trainer_encodec_se_vc.py`:
pads every sequence to `max_length` and then builds each mask by comparing every
token of the padded sequence with the padding value
(`[1 if token != padding_value else 0 for token in sequence]`). -/
def pad_sequences_and_create_masks (sequences : List (List Int)) (max_length : Nat)
    (padding_value : Int) : List (List Int) × List (List Nat) :=
  let padded_sequences := sequences.map
    (fun sequence => sequence ++ List.replicate (max_length - sequence.length) padding_value)
  (padded_sequences,
   padded_sequences.map (fun sequence => sequence.map
     (fun token => if token ≠ padding_value then 1 else 0)))

/-- The padding claim exactly as the specification states it: for every list
of input sequences, each strictly shorter than the maximum length, both
padding utilities return a padded sequence of exactly the maximum length and
an attention mask with exactly as many ones as the original sequence length. -/
def padding_mask_claim : Prop :=
  ∀ (sequences : List (List Int)) (max_length : Nat) (padding_value : Int),
    (∀ s ∈ sequences, s.length < max_length) →
    ∀ i, i < sequences.length →
      (((pad_sequences_and_create_masks sequences max_length padding_value).1.getD i []).length
          = max_length
        ∧ ((pad_sequences_and_create_masks sequences max_length padding_value).2.getD i []).count 1
          = (sequences.getD i []).length)
      ∧ (((pad_sequences sequences max_length padding_value).getD i []).length = max_length
        ∧ (get_attention_mask (sequences.getD i []).length max_length).count 1
          = (sequences.getD i []).length)

/-- Helper: `getD` through a `map` at an in-bounds index. -/
theorem getD_map_of_lt {α β : Type} (f : α → β) (l : List α) (i : Nat) (h : i < l.length)
    (d : β) (d0 : α) : (l.map f).getD i d = f (l.getD i d0) := by
  rw [List.getD_eq_getElem _ _ (by simpa using h), List.getD_eq_getElem _ _ h, List.getElem_map]

set_option maxRecDepth 40000 in
/-- C1 (counterexample): the claim fails as stated for
`pad_sequences_and_create_masks`, because the mask is computed by comparing
padded tokens with the padding value: a sequence that itself contains the
padding value gets fewer ones than its length.  Witnessed by the single
sequence `[7]` with padding value `7` and maximum length `1023`. -/
theorem pad_and_mask_claim_false : ¬ padding_mask_claim := by
  intro h
  have h2 := h [[(7 : Int)]] 1023 7 (by decide) 0 (by decide)
  exact absurd h2.1.2 (by decide)

/-- C1 (amended): for every list of input token sequences, each strictly
shorter than the configured maximum length, both utilities return a padded
sequence of exactly the maximum length, and the `pad_sequences` /
`get_attention_mask` pair returns a mask with exactly as many ones as the
original sequence length; the mask of `pad_sequences_and_create_masks` has
exactly that many ones provided the sequence contains no occurrence of the
padding value. -/
theorem pad_and_mask_amended :
    ∀ (sequences : List (List Int)) (max_length : Nat) (padding_value : Int),
    (∀ s ∈ sequences, s.length < max_length) →
    ∀ i, i < sequences.length →
      (((pad_sequences_and_create_masks sequences max_length padding_value).1.getD i []).length
          = max_length
        ∧ (padding_value ∉ sequences.getD i [] →
          ((pad_sequences_and_create_masks sequences max_length padding_value).2.getD i []).count 1
            = (sequences.getD i []).length))
      ∧ (((pad_sequences sequences max_length padding_value).getD i []).length = max_length
        ∧ (get_attention_mask (sequences.getD i []).length max_length).count 1
          = (sequences.getD i []).length) := by
  intro sequences max_length padding_value hall i hi
  have hmem : sequences.getD i [] ∈ sequences := by
    rw [List.getD_eq_getElem _ _ hi]
    exact List.getElem_mem hi
  have hlen := hall _ hmem
  set s : List Int := sequences.getD i [] with hs
  have hlen_pad :
      (s ++ List.replicate (max_length - s.length) padding_value).length = max_length := by
    simp only [List.length_append, List.length_replicate]
    omega
  refine ⟨⟨?_, ?_⟩, ?_, ?_⟩
  · show ((sequences.map _).getD i []).length = max_length
    rw [getD_map_of_lt _ _ _ hi _ []]
    exact hlen_pad
  · intro hpad
    have hcount :
        ((s ++ List.replicate (max_length - s.length) padding_value).map
          (fun token => if token ≠ padding_value then 1 else 0)).count 1 = s.length := by
      rw [List.map_append, List.count_append, List.map_replicate]
      have hrep : (List.replicate (max_length - s.length)
          (if padding_value ≠ padding_value then (1 : Nat) else 0)).count 1 = 0 := by
        have hz : (if padding_value ≠ padding_value then (1 : Nat) else 0) = 0 := by simp
        rw [hz, List.count_eq_zero]
        simp [List.mem_replicate]
      rw [hrep]
      have h2 : (s.map (fun token => if token ≠ padding_value then (1 : Nat) else 0)).count 1
          = (s.map (fun token => if token ≠ padding_value then (1 : Nat) else 0)).length := by
        rw [List.count_eq_length]
        intro b hb
        obtain ⟨t, ht, rfl⟩ := List.mem_map.mp hb
        have : t ≠ padding_value := fun hc => hpad (hc ▸ ht)
        simp [this]
      rw [h2, List.length_map]
      omega
    show (((sequences.map _).map _).getD i []).count 1 = s.length
    rw [getD_map_of_lt _ _ _ (by simpa using hi) _ ([] : List Int), getD_map_of_lt _ _ _ hi _ []]
    exact hcount
  · show ((sequences.map _).getD i []).length = max_length
    rw [getD_map_of_lt _ _ _ hi _ []]
    exact hlen_pad
  · unfold get_attention_mask
    rw [List.count_append, List.count_replicate, List.count_replicate]
    simp

/-- C1 (witness): the amended theorem applied to the concrete input
`[[5]]`, maximum length 3, padding value 0. -/
theorem pad_and_mask_amended_witness :
    ((∀ s ∈ [[(5 : Int)]], s.length < 3) ∧ 0 < ([[(5 : Int)]] : List (List Int)).length)
    ∧ ((((pad_sequences_and_create_masks [[(5 : Int)]] 3 0).1.getD 0 []).length = 3
        ∧ ((0 : Int) ∉ ([[(5 : Int)]] : List (List Int)).getD 0 [] →
          ((pad_sequences_and_create_masks [[(5 : Int)]] 3 0).2.getD 0 []).count 1
            = (([[(5 : Int)]] : List (List Int)).getD 0 []).length))
      ∧ (((pad_sequences [[(5 : Int)]] 3 0).getD 0 []).length = 3
        ∧ (get_attention_mask (([[(5 : Int)]] : List (List Int)).getD 0 []).length 3).count 1
          = (([[(5 : Int)]] : List (List Int)).getD 0 []).length)) :=
  ⟨⟨by decide, by decide⟩, pad_and_mask_amended [[(5 : Int)]] 3 0 (by decide) 0 (by decide)⟩

/-- C9: the padding utilities never truncate: the original sequence is a
prefix of the padded one, the padded length is the maximum of the original
length and `max_length`, and a sequence at least as long as `max_length` is
returned unchanged.  The padded component of `pad_sequences_and_create_masks`
is literally the same computation as `pad_sequences`. -/
theorem pad_sequences_no_truncation :
    ∀ (sequences : List (List Int)) (max_length : Nat) (padding_value : Int) (i : Nat),
    i < sequences.length →
      ((pad_sequences sequences max_length padding_value).getD i []).take
          (sequences.getD i []).length = sequences.getD i []
      ∧ ((pad_sequences sequences max_length padding_value).getD i []).length
          = max (sequences.getD i []).length max_length
      ∧ (max_length ≤ (sequences.getD i []).length →
          (pad_sequences sequences max_length padding_value).getD i [] = sequences.getD i [])
      ∧ (pad_sequences_and_create_masks sequences max_length padding_value).1
          = pad_sequences sequences max_length padding_value := by
  intro sequences max_length padding_value i hi
  unfold pad_sequences
  rw [getD_map_of_lt _ _ _ hi _ []]
  refine ⟨List.take_left _ _, ?_, ?_, rfl⟩
  · simp only [List.length_append, List.length_replicate]
    omega
  · intro hge
    have hz : max_length - (sequences.getD i []).length = 0 := by omega
    rw [hz, List.replicate_zero, List.append_nil]

/-- C9 (witness): the no-truncation theorem applied to the concrete input
`[[1, 2, 3]]` with maximum length 2 (shorter than the sequence). -/
theorem pad_sequences_no_truncation_witness :
    (0 < ([[(1 : Int), 2, 3]] : List (List Int)).length)
    ∧ (((pad_sequences [[(1 : Int), 2, 3]] 2 9).getD 0 []).take
          (([[(1 : Int), 2, 3]] : List (List Int)).getD 0 []).length
        = ([[(1 : Int), 2, 3]] : List (List Int)).getD 0 []
      ∧ ((pad_sequences [[(1 : Int), 2, 3]] 2 9).getD 0 []).length
        = max (([[(1 : Int), 2, 3]] : List (List Int)).getD 0 []).length 2
      ∧ (2 ≤ (([[(1 : Int), 2, 3]] : List (List Int)).getD 0 []).length →
          (pad_sequences [[(1 : Int), 2, 3]] 2 9).getD 0 []
            = ([[(1 : Int), 2, 3]] : List (List Int)).getD 0 [])
      ∧ (pad_sequences_and_create_masks [[(1 : Int), 2, 3]] 2 9).1
          = pad_sequences [[(1 : Int), 2, 3]] 2 9) :=
  ⟨by decide, pad_sequences_no_truncation [[(1 : Int), 2, 3]] 2 9 0 (by decide)⟩

/-- A decoded tokenizer token as it appears in the strings handled by
`convert_to_encode_code` in `trainer_encodec_vc_inference.py`: either a
shared-vocabulary codec token `v_tok_{k}`, or one of the two special tokens
the function strips (`</s>` and `<pad>`). -/
inductive VTok where
  | vtok (k : Nat)
  | eos
  | pad
deriving DecidableEq

/-- Embeds the layer-i encoding used throughout the repository
(`trainer_encodec_se_vc.py` `process_data_to_model_inputs`, and
`ground_truth_only` in the inference script): a raw code value `u` of residual
layer `i` becomes the shared-vocabulary token `v_tok_{u + i * 1024}`. -/
def encode_layer_tokens (i : Nat) (codes : List Nat) : List VTok :=
  codes.map (fun u => VTok.vtok (u + i * 1024))

/-- Embeds the per-layer decoding step of `convert_to_encode_code`:
`</s>` and `<pad>` are removed, the remaining string is split on `v_tok_`,
and each numeric payload has `layer * 1024` subtracted (Python `int`
subtraction, hence the result lives in `Int`). -/
def parse_layer_codes (layer : Nat) (toks : List VTok) : List Int :=
  toks.filterMap (fun t =>
    match t with
    | VTok.vtok k => some ((k : Int) - (layer : Int) * 1024)
    | VTok.eos => none
    | VTok.pad => none)

/-- Embeds one iteration of the per-example loop of `convert_to_encode_code`:
the freshly parsed layer codes are appended and the appended entry is
truncated to the length of the first entry
(`encodec_code[-1] = encodec_code[-1][:len(encodec_code[0])]`; on the first
iteration the first entry is the appended entry itself, so the truncation is
the identity). -/
def convert_step (code : List (List Int)) (p : Nat × List VTok) : List (List Int) :=
  let parsed := parse_layer_codes p.1 p.2
  let first_len :=
    match code with
    | [] => parsed.length
    | c0 :: _ => c0.length
  code ++ [parsed.take first_len]

/-- Embeds the per-example body of `convert_to_encode_code`: the decoded token
rows, one per residual layer, are folded with `convert_step` in layer order. -/
def convert_row (tok_rows : List (List VTok)) : List (List Int) :=
  tok_rows.enum.foldl convert_step []

/-- C3: round-trip identity of the token-id layering convention: a layer-`i`
code value `u` in `[0, 1024)` encoded as the shared token `v_tok_{u + i*1024}`
and decoded back by the `convert_to_encode_code` arithmetic (subtracting
`i * 1024`) recovers a value in `[0, 1024)`, namely `u` itself. -/
theorem vtok_roundtrip :
    ∀ (i u : Nat), i ≤ 7 → u < 1024 →
      parse_layer_codes i (encode_layer_tokens i [u]) = [(u : Int)]
      ∧ (0 : Int) ≤ (u : Int) ∧ (u : Int) < 1024 := by
  intro i u _ hu
  refine ⟨?_, Int.ofNat_nonneg u, ?_⟩
  · simp only [encode_layer_tokens, parse_layer_codes, List.map_cons, List.map_nil,
      List.filterMap_cons, List.filterMap_nil]
    congr 1
    push_cast
    ring
  · exact_mod_cast hu

/-- C3 (witness): the round trip at layer 3 and code value 5. -/
theorem vtok_roundtrip_witness :
    ((3 : Nat) ≤ 7 ∧ (5 : Nat) < 1024)
    ∧ (parse_layer_codes 3 (encode_layer_tokens 3 [5]) = [(5 : Int)]
      ∧ (0 : Int) ≤ ((5 : Nat) : Int) ∧ ((5 : Nat) : Int) < 1024) :=
  ⟨⟨by decide, by decide⟩, vtok_roundtrip 3 5 (by decide) (by decide)⟩

/-- Helper: folding `convert_step` over any further rows keeps the first entry
in place and keeps every later entry at most as long as the first entry. -/
theorem convert_step_foldl_inv :
    ∀ (rows : List (Nat × List VTok)) (c0 : List Int) (tail : List (List Int)),
    (∀ c ∈ tail, c.length ≤ c0.length) →
    ∃ tail2, List.foldl convert_step (c0 :: tail) rows = c0 :: tail2
      ∧ ∀ c ∈ tail2, c.length ≤ c0.length := by
  intro rows
  induction rows with
  | nil => exact fun c0 tail h => ⟨tail, rfl, h⟩
  | cons p rest ih =>
    intro c0 tail h
    have hstep : convert_step (c0 :: tail) p
        = c0 :: (tail ++ [(parse_layer_codes p.1 p.2).take c0.length]) := by
      simp [convert_step]
    rw [List.foldl_cons, hstep]
    refine ih c0 (tail ++ [(parse_layer_codes p.1 p.2).take c0.length]) ?_
    intro c hc
    rcases List.mem_append.mp hc with hc | hc
    · exact h c hc
    · rcases List.mem_singleton.mp hc with rfl
      simp

/-- C10: every per-example code matrix produced by `convert_to_encode_code`
satisfies the invariant that each layer's code list is at most as long as the
layer-0 code list, because each appended layer is truncated to the layer-0
length. -/
theorem convert_row_layer_length_bound :
    ∀ (tok_rows : List (List VTok)) (l : Nat), l < (convert_row tok_rows).length →
      ((convert_row tok_rows).getD l []).length ≤ ((convert_row tok_rows).getD 0 []).length := by
  intro tok_rows l hl
  cases tok_rows with
  | nil =>
    simp [convert_row] at hl
  | cons r rest =>
    have hfirst : convert_step [] (0, r)
        = [parse_layer_codes 0 r] := by
      simp [convert_step]
    have hunfold : convert_row (r :: rest)
        = List.foldl convert_step [parse_layer_codes 0 r] (rest.enumFrom 1) := by
      simp only [convert_row, List.enum_cons, List.foldl_cons, hfirst]
    obtain ⟨tail2, heq, hbound⟩ :=
      convert_step_foldl_inv (rest.enumFrom 1) (parse_layer_codes 0 r) [] (by simp)
    rw [hunfold, heq] at hl ⊢
    cases l with
    | zero => exact le_refl _
    | succ j =>
      have hj : j < tail2.length := by simpa using hl
      have hmem : tail2.getD j [] ∈ tail2 := by
        rw [List.getD_eq_getElem _ _ hj]
        exact List.getElem_mem hj
      simpa using hbound _ hmem

/-- C10 (witness): the bound on a concrete three-layer example whose later
layers decode to more codes than layer 0. -/
theorem convert_row_layer_length_bound_witness :
    (1 < (convert_row [[VTok.vtok 3], [VTok.vtok 1030, VTok.vtok 1031]]).length)
    ∧ ((convert_row [[VTok.vtok 3], [VTok.vtok 1030, VTok.vtok 1031]]).getD 1 []).length
      ≤ ((convert_row [[VTok.vtok 3], [VTok.vtok 1030, VTok.vtok 1031]]).getD 0 []).length :=
  ⟨by decide,
   convert_row_layer_length_bound [[VTok.vtok 3], [VTok.vtok 1030, VTok.vtok 1031]] 1 (by decide)⟩

/-- Embeds `tokenizer.convert_tokens_to_ids` for the codec tokens: the shared
vocabulary stores `v_tok_0 .. v_tok_8191` contiguously from some base id, so
the id of `v_tok_k` is `base + k`.  Both range endpoints computed in
`nar_decode` (`v_tok_{0 + 1024*layer}` and `v_tok_{1024 + 1024*layer}`) are
obtained through this map. -/
def vtokId (base k : Nat) : Nat := base + k

/-- Embeds `torch.argmax(_, dim=-1)` on one logit vector over `WithBot Int`
(`⊥` plays the role of `float("-inf")` written by the mask): the index of the
first occurrence of the maximum, and 0 on an all-`⊥` vector. -/
def torch_argmax (l : List (WithBot Int)) : Nat :=
  l.findIdx (fun x => decide (x = l.foldl max ⊥))

/-- Embeds `nar_decode` from `trainer_encodec_vc_inference.py` for one logit
vector: positions outside `[id(v_tok_{1024*layer}), id(v_tok_{1024+1024*layer}))`
are replaced by `⊥` (the source writes `float("-inf")` via `torch.where`), and
the argmax of the masked vector is returned.  The model forward producing the
logits is a pretrained black box, so the logits are a parameter. -/
def nar_decode (base layer : Nat) (row : List Int) : Nat :=
  torch_argmax ((List.range row.length).map
    (fun i => if vtokId base (0 + 1024 * layer) ≤ i ∧ i < vtokId base (1024 + 1024 * layer)
      then ((row.getD i 0 : Int) : WithBot Int) else ⊥))

/-- Helper: the initial accumulator is below a `foldl max`. -/
theorem foldl_max_init_le (l : List (WithBot Int)) (a : WithBot Int) :
    a ≤ l.foldl max a := by
  induction l generalizing a with
  | nil => exact le_refl a
  | cons x xs ih => exact le_trans (le_max_left a x) (ih (max a x))

/-- Helper: every member of a list is below its `foldl max`. -/
theorem le_foldl_max (l : List (WithBot Int)) :
    ∀ (a x : WithBot Int), x ∈ l → x ≤ l.foldl max a := by
  induction l with
  | nil => intro a x hx; cases hx
  | cons y ys ih =>
    intro a x hx
    rcases List.mem_cons.mp hx with rfl | hx
    · exact le_trans (le_max_right a x) (foldl_max_init_le ys (max a x))
    · exact ih (max a y) x hx

/-- Helper: a `foldl max` is the accumulator or one of the list members. -/
theorem foldl_max_mem (l : List (WithBot Int)) :
    ∀ (a : WithBot Int), l.foldl max a = a ∨ l.foldl max a ∈ l := by
  induction l with
  | nil => exact fun a => Or.inl rfl
  | cons x xs ih =>
    intro a
    rcases ih (max a x) with h | h
    · rcases max_choice a x with hm | hm
      · exact Or.inl (by rw [List.foldl_cons, h, hm])
      · exact Or.inr (by rw [List.foldl_cons, h, hm]; exact List.mem_cons_self x xs)
    · exact Or.inr (List.mem_cons_of_mem x h)

/-- Helper: if some entry of the vector is not `⊥`, then the entry selected by
`torch_argmax` is not `⊥` either (in particular the argmax is in bounds). -/
theorem torch_argmax_ne_bot (l : List (WithBot Int)) (j : Nat)
    (hne : l.getD j ⊥ ≠ ⊥) : l.getD (torch_argmax l) ⊥ ≠ ⊥ := by
  have hj : j < l.length := by
    by_contra hcon
    exact hne (List.getD_eq_default _ _ (by omega))
  rw [List.getD_eq_getElem _ _ hj] at hne
  have hle : l[j] ≤ l.foldl max ⊥ := le_foldl_max l ⊥ _ (List.getElem_mem hj)
  have hmax_ne : l.foldl max ⊥ ≠ ⊥ := by
    intro hbot
    rw [hbot] at hle
    exact hne (le_bot_iff.mp hle)
  have hmem : l.foldl max ⊥ ∈ l := by
    rcases foldl_max_mem l ⊥ with h | h
    · exact absurd h hmax_ne
    · exact h
  have hidx : l.findIdx (fun x => decide (x = l.foldl max ⊥)) < l.length :=
    List.findIdx_lt_length_of_exists ⟨l.foldl max ⊥, hmem, by simp⟩
  have heq : l[l.findIdx (fun x => decide (x = l.foldl max ⊥))] = l.foldl max ⊥ := by
    have := List.findIdx_getElem (w := hidx)
    simpa using this
  show l.getD (l.findIdx _) ⊥ ≠ ⊥
  rw [List.getD_eq_getElem _ _ hidx, heq]
  exact hmax_ne

/-- Helper (per-layer id range of `nar_decode`): whenever the vocabulary is at
least as large as the end of the masked range, the argmax lands inside the
per-layer id range, because every out-of-range position was set to `⊥` and at
least one in-range finite logit exists. -/
theorem nar_decode_range (base layer : Nat) (row : List Int)
    (h : vtokId base (1024 + 1024 * layer) ≤ row.length) :
    vtokId base (0 + 1024 * layer) ≤ nar_decode base layer row
    ∧ nar_decode base layer row < vtokId base (1024 + 1024 * layer) := by
  have hlohi : vtokId base (0 + 1024 * layer) < vtokId base (1024 + 1024 * layer) := by
    unfold vtokId
    omega
  have hgd : ∀ i, (((List.range row.length).map
      (fun i => if vtokId base (0 + 1024 * layer) ≤ i ∧ i < vtokId base (1024 + 1024 * layer)
        then ((row.getD i 0 : Int) : WithBot Int) else ⊥)).getD i ⊥)
      = if i < row.length then
          (if vtokId base (0 + 1024 * layer) ≤ i ∧ i < vtokId base (1024 + 1024 * layer)
            then ((row.getD i 0 : Int) : WithBot Int) else ⊥)
        else ⊥ := by
    intro i
    by_cases hi : i < row.length
    · rw [if_pos hi, List.getD_eq_getElem _ _ (by simpa using hi), List.getElem_map,
        List.getElem_range]
    · rw [if_neg hi, List.getD_eq_default _ _ (by simp; omega)]
  have hlo_ne : (((List.range row.length).map
      (fun i => if vtokId base (0 + 1024 * layer) ≤ i ∧ i < vtokId base (1024 + 1024 * layer)
        then ((row.getD i 0 : Int) : WithBot Int) else ⊥)).getD (vtokId base (0 + 1024 * layer)) ⊥)
      ≠ ⊥ := by
    rw [hgd]
    rw [if_pos (by omega), if_pos ⟨le_refl _, hlohi⟩]
    exact WithBot.coe_ne_bot
  have hargne := torch_argmax_ne_bot _ _ hlo_ne
  rw [hgd] at hargne
  have hres : nar_decode base layer row = torch_argmax ((List.range row.length).map
      (fun i => if vtokId base (0 + 1024 * layer) ≤ i ∧ i < vtokId base (1024 + 1024 * layer)
        then ((row.getD i 0 : Int) : WithBot Int) else ⊥)) := rfl
  rw [hres]
  by_cases hlt : torch_argmax ((List.range row.length).map
      (fun i => if vtokId base (0 + 1024 * layer) ≤ i ∧ i < vtokId base (1024 + 1024 * layer)
        then ((row.getD i 0 : Int) : WithBot Int) else ⊥)) < row.length
  · rw [if_pos hlt] at hargne
    by_cases hin : vtokId base (0 + 1024 * layer) ≤ torch_argmax ((List.range row.length).map
        (fun i => if vtokId base (0 + 1024 * layer) ≤ i ∧ i < vtokId base (1024 + 1024 * layer)
          then ((row.getD i 0 : Int) : WithBot Int) else ⊥))
        ∧ torch_argmax ((List.range row.length).map
        (fun i => if vtokId base (0 + 1024 * layer) ≤ i ∧ i < vtokId base (1024 + 1024 * layer)
          then ((row.getD i 0 : Int) : WithBot Int) else ⊥)) < vtokId base (1024 + 1024 * layer)
    · exact hin
    · rw [if_neg hin] at hargne
      exact absurd rfl hargne
  · rw [if_neg hlt] at hargne
    exact absurd rfl hargne

/-- Embeds `cascade_ar_nar` from `trainer_encodec_vc_inference.py`:
`layer_list` starts with the autoregressive prediction, and
`for layer in range(1, 8)` appends `nar_decode` of the non-autoregressive
model's logits for that layer.  The packed encoder inputs, the pretrained NAR
model and the forward pass are abstracted into `nar_logits`, a function of the
layer and of `layer_list[-1]` (the previously decoded layer, which the source
feeds back as decoder input); each entry of its result is the logit vector of
one output position. -/
def cascade_ar_nar (base : Nat) (ar_pred : List Nat)
    (nar_logits : Nat → List Nat → List (List Int)) : List (List Nat) :=
  (List.range 7).foldl (fun layer_list j =>
    layer_list ++ [(nar_logits (j + 1) (layer_list.getLastD [])).map
      (fun row => nar_decode base (j + 1) row)]) [ar_pred]

/-- Helper: the seven loop iterations of `cascade_ar_nar`, unfolded. -/
theorem cascade_ar_nar_unfold (base : Nat) (ar_pred : List Nat)
    (nar_logits : Nat → List Nat → List (List Int)) :
    cascade_ar_nar base ar_pred nar_logits =
      (let l1 := (nar_logits 1 ar_pred).map (fun row => nar_decode base 1 row)
       let l2 := (nar_logits 2 l1).map (fun row => nar_decode base 2 row)
       let l3 := (nar_logits 3 l2).map (fun row => nar_decode base 3 row)
       let l4 := (nar_logits 4 l3).map (fun row => nar_decode base 4 row)
       let l5 := (nar_logits 5 l4).map (fun row => nar_decode base 5 row)
       let l6 := (nar_logits 6 l5).map (fun row => nar_decode base 6 row)
       let l7 := (nar_logits 7 l6).map (fun row => nar_decode base 7 row)
       [ar_pred, l1, l2, l3, l4, l5, l6, l7]) := rfl

/-- C2: the cascaded inference runs one autoregressive pass followed by exactly
seven non-autoregressive refinement passes (the result has the AR prediction at
index 0 followed by one entry per layer 1..7), and, provided the vocabulary
extends past the end of each masked range, every token id returned by
`nar_decode` for layer `layer` lies in
`[id(v_tok_{1024*layer}), id(v_tok_{1024+1024*layer}))`. -/
theorem cascade_structure_and_range (base : Nat) (ar_pred : List Nat)
    (nar_logits : Nat → List Nat → List (List Int))
    (hvocab : ∀ layer prev row, row ∈ nar_logits layer prev →
      vtokId base (1024 + 1024 * layer) ≤ row.length) :
    (cascade_ar_nar base ar_pred nar_logits).length = 8
    ∧ (cascade_ar_nar base ar_pred nar_logits).getD 0 [] = ar_pred
    ∧ ∀ layer, 1 ≤ layer → layer < 8 →
        ∀ t ∈ (cascade_ar_nar base ar_pred nar_logits).getD layer [],
          vtokId base (0 + 1024 * layer) ≤ t ∧ t < vtokId base (1024 + 1024 * layer) := by
  rw [cascade_ar_nar_unfold]
  refine ⟨rfl, rfl, ?_⟩
  intro layer h1 h8 t ht
  interval_cases layer <;>
    · obtain ⟨row, hrow, rfl⟩ := List.mem_map.mp ht
      exact nar_decode_range base _ row (hvocab _ _ _ hrow)

/-- C2 (witness): the cascade theorem applied to a concrete model whose logit
vectors have exactly the minimal admissible length for each layer. -/
theorem cascade_structure_and_range_witness :
    (∀ layer prev row,
      row ∈ (fun (layer : Nat) (_prev : List Nat) =>
        [List.replicate (1024 + 1024 * layer) (0 : Int)]) layer prev →
      vtokId 0 (1024 + 1024 * layer) ≤ row.length)
    ∧ ((cascade_ar_nar 0 [2]
          (fun layer _prev => [List.replicate (1024 + 1024 * layer) (0 : Int)])).length = 8
      ∧ (cascade_ar_nar 0 [2]
          (fun layer _prev => [List.replicate (1024 + 1024 * layer) (0 : Int)])).getD 0 [] = [2]
      ∧ ∀ layer, 1 ≤ layer → layer < 8 →
          ∀ t ∈ (cascade_ar_nar 0 [2]
            (fun layer _prev => [List.replicate (1024 + 1024 * layer) (0 : Int)])).getD layer [],
            vtokId 0 (0 + 1024 * layer) ≤ t ∧ t < vtokId 0 (1024 + 1024 * layer)) := by
  have hv : ∀ layer prev row,
      row ∈ (fun (layer : Nat) (_prev : List Nat) =>
        [List.replicate (1024 + 1024 * layer) (0 : Int)]) layer prev →
      vtokId 0 (1024 + 1024 * layer) ≤ row.length := by
    intro layer prev row h
    simp only [List.mem_singleton] at h
    subst h
    simp [vtokId]
  exact ⟨hv, cascade_structure_and_range 0 [2] _ hv⟩

/-- The batch dictionary returned by `process_data_to_model_inputs` in
`trainer_encodec_se_vc.py`: the five fields of the returned Python dict. -/
structure NarBatch where
  input_ids : List (List Int)
  attention_mask : List (List Nat)
  decoder_input_ids : List (List (List Int))
  decoder_attention_mask : List (List Nat)
  labels : List (List Int)
deriving DecidableEq

/-- Embeds the two assertions guarded by `try` at the end of
`process_data_to_model_inputs` in `trainer_encodec_se_vc.py`:
`len(decoder_attention_mask) == len(decoder_input_ids) == len(input_ids)` and
`len(decoder_input_ids[0]) == 7`.  When `decoder_input_ids` is empty the second
assertion raises `IndexError` instead of `AssertionError`; the bare `except`
catches either, so that case also counts as a failure. -/
def nar_asserts_pass (input_ids : List (List Int))
    (decoder_input_ids : List (List (List Int)))
    (decoder_attention_mask : List (List Nat)) : Bool :=
  (decide (decoder_attention_mask.length = decoder_input_ids.length)
    && decide (decoder_input_ids.length = input_ids.length))
  && (match decoder_input_ids with
      | [] => false
      | d0 :: _ => decide (d0.length = 7))

/-- Embeds the `try`/`except`/`return` tail of `process_data_to_model_inputs`
in `trainer_encodec_se_vc.py` (lines 105-122), applied to the five arrays the
function has built: if the assertions pass, the populated batch is returned;
otherwise the `except` branch logs the array shapes (modelled by the `Bool`
flag) and returns a batch whose five fields are all empty lists. -/
def finalize_nar_batch (input_ids : List (List Int)) (attention_mask : List (List Nat))
    (decoder_input_ids : List (List (List Int))) (decoder_attention_mask : List (List Nat))
    (labels : List (List Int)) : NarBatch × Bool :=
  if nar_asserts_pass input_ids decoder_input_ids decoder_attention_mask then
    (⟨input_ids, attention_mask, decoder_input_ids, decoder_attention_mask, labels⟩, false)
  else
    (⟨[], [], [], [], []⟩, true)

/-- C5: when the internal length-consistency assertions fail, the NAR
data-preprocessing function logs the shapes (flag `true`) and returns a batch
whose five fields are all empty lists, instead of propagating the exception. -/
theorem nar_batch_empty_on_assert_failure :
    ∀ (input_ids : List (List Int)) (attention_mask : List (List Nat))
      (decoder_input_ids : List (List (List Int))) (decoder_attention_mask : List (List Nat))
      (labels : List (List Int)),
    nar_asserts_pass input_ids decoder_input_ids decoder_attention_mask = false →
    finalize_nar_batch input_ids attention_mask decoder_input_ids decoder_attention_mask labels
      = (⟨[], [], [], [], []⟩, true) := by
  intro input_ids attention_mask decoder_input_ids decoder_attention_mask labels hfail
  unfold finalize_nar_batch
  rw [hfail]
  simp

/-- C5 (witness): the finalization at concrete arrays whose batch dimensions
disagree (one encoder row, no decoder rows). -/
theorem nar_batch_empty_on_assert_failure_witness :
    nar_asserts_pass [[(3 : Int)]] [] [] = false
    ∧ finalize_nar_batch [[(3 : Int)]] [[1]] [] [] [[(5 : Int)]]
      = (⟨[], [], [], [], []⟩, true) :=
  ⟨by decide, nar_batch_empty_on_assert_failure [[(3 : Int)]] [[1]] [] [] [[(5 : Int)]] (by decide)⟩

/-- The parameter count of `nar_decode` in `trainer_encodec_vc_inference.py`:
`def nar_decode(model, tokenizer, inputs, layer=0)` declares four parameters
(the last one with a default). -/
def nar_decode_num_params : Nat := 4

/-- The positional argument count at the call site inside `nar_model_only`:
`nar_decode(model, tokenizer, inputs, layer_list[-1], layer)` passes five
positional arguments. -/
def nar_model_only_num_args : Nat := 5

/-- Python call semantics: a call with more positional arguments than the
callee declares parameters raises `TypeError`. -/
def py_positional_call_raises (num_args num_params : Nat) : Bool :=
  decide (num_params < num_args)

/-- A dynamically typed Python value as relevant to the `pack_inputs` call
made by `nar_model_only`: an int or a list. -/
inductive PyVal where
  | int (n : Int)
  | list (elems : List PyVal)

/-- Python `+` on such values: list `+` list concatenates, and any other
combination raises `TypeError` (as `[bos_token_id] + instruction_ids` does in
`pack_inputs` when `instruction_ids` is an int). -/
def py_add : PyVal → PyVal → Except String PyVal
  | PyVal.list a, PyVal.list b => Except.ok (PyVal.list (a ++ b))
  | _, _ => Except.error "TypeError: can only concatenate list to list"

/-- Embeds the `encoder_input_ids` construction inside the loop of
`pack_inputs` (`trainer_encodec_vc_inference.py` line 74):
`[bos_token_id] + instruction_ids + [sep_token_id] + transcription_ids +
[sep_token_id] + encodec_ids + [eos_token_id]`, evaluated left to right with
Python `+` semantics. -/
def build_encoder_input (bos sep eos : Int)
    (instruction_ids transcription_ids encodec_ids : PyVal) : Except String PyVal := do
  let a ← py_add (PyVal.list [PyVal.int bos]) instruction_ids
  let b ← py_add a (PyVal.list [PyVal.int sep])
  let c ← py_add b transcription_ids
  let d ← py_add c (PyVal.list [PyVal.int sep])
  let f ← py_add d encodec_ids
  py_add f (PyVal.list [PyVal.int eos])

/-- Embeds `pack_inputs` as invoked by `nar_model_only`
(`trainer_encodec_vc_inference.py` line 172): the flat per-example id lists
are passed where `pack_inputs` expects lists of lists (and `1023` is bound to
`prev_encodec_ids_list`, leaving `mode='ar'`, so the decoder branch is
skipped).  The `zip` over the three arguments therefore yields triples of
ints, each fed to the `encoder_input_ids` concatenation.  The subsequent mask
and padding steps of `pack_inputs` cannot raise and do not matter to the
claims, so the success value is the list of built encoder inputs. -/
def pack_inputs_misused (bos sep eos : Int)
    (instruction_ids transcription_ids encodec_ids : List Int) :
    Except String (List PyVal) :=
  (List.zip (instruction_ids.map PyVal.int)
      (List.zip (transcription_ids.map PyVal.int) (encodec_ids.map PyVal.int))).foldlM
    (fun acc p => do
      let enc ← build_encoder_input bos sep eos p.1 p.2.1 p.2.2
      pure (acc ++ [enc])) []

/-- Embeds the refinement loop of `nar_model_only` in
`trainer_encodec_vc_inference.py` (lines 167-176): `layer_list` starts with
the ground-truth layer-0 ids, and each of the seven iterations first evaluates
the misused `pack_inputs` call on the tokenized instruction, transcription and
per-layer source codec ids, then calls `nar_decode` with five positional
arguments although it declares four parameters.  The body after that call
(appending the decoded layer) is unreachable on either error path. -/
def nar_model_only_run (bos sep eos : Int) (instruction_ids transcription_ids : List Int)
    (src_encodec : Nat → List Int) (tgt0 : List Nat) :
    Except String (List (List Nat)) :=
  (List.range 7).foldlM (fun layer_list j => do
    let _inputs ← pack_inputs_misused bos sep eos instruction_ids transcription_ids
      (src_encodec (j + 1))
    if py_positional_call_raises nar_model_only_num_args nar_decode_num_params then
      Except.error "TypeError: nar_decode takes from 3 to 4 positional arguments but 5 were given"
    else
      Except.ok (layer_list ++ [[]])) [tgt0]

/-- Helper: with all three id lists non-empty, the misused `pack_inputs`
raises the list-concatenation `TypeError` on its first loop iteration. -/
theorem pack_inputs_misused_cons (bos sep eos i t s : Int)
    (irest trest srest : List Int) :
    pack_inputs_misused bos sep eos (i :: irest) (t :: trest) (s :: srest)
      = Except.error "TypeError: can only concatenate list to list" := rfl

/-- Helper: a fold in the `Except` monad whose first step fails, fails. -/
theorem except_foldlM_cons_error {a b : Type} (f : b → a → Except String b)
    (init : b) (x : a) (xs : List a) (msg : String) (h : f init x = Except.error msg) :
    (x :: xs).foldlM f init = Except.error msg := by
  rw [List.foldlM_cons, h]
  rfl

/-- C8 (counterexample): on a concrete input whose instruction, transcription
and source codec lists are all non-empty (every realistic dataset input), the
first refinement iteration of `nar_model_only` fails with the
list-concatenation `TypeError` raised inside the misused `pack_inputs` call —
which is a different `TypeError` than the five-positional-arguments failure of
the `nar_decode` call the claim blames, so the `nar_decode` call site is never
reached. -/
theorem nar_model_only_claim_false :
    nar_model_only_run 0 2 2 [5] [6] (fun _ => [7]) [1]
      = Except.error "TypeError: can only concatenate list to list"
    ∧ "TypeError: can only concatenate list to list"
      ≠ "TypeError: nar_decode takes from 3 to 4 positional arguments but 5 were given" :=
  ⟨rfl, by decide⟩

/-- C8 (amended): for every input, `nar_model_only` raises a `TypeError` on
its first refinement iteration and never returns a layer list normally; when
the tokenized instruction, transcription and layer-1 source codec lists are
all non-empty, the error is the list-with-int concatenation inside the misused
`pack_inputs` call, raised before `nar_decode` is invoked, and only when one
of those lists is empty does the five-positional-arguments call of
`nar_decode` (four declared parameters) raise. -/
theorem nar_model_only_type_error :
    ∀ (bos sep eos : Int) (instruction_ids transcription_ids : List Int)
      (src_encodec : Nat → List Int) (tgt0 : List Nat),
    (∀ res, nar_model_only_run bos sep eos instruction_ids transcription_ids src_encodec tgt0
        ≠ Except.ok res)
    ∧ (instruction_ids ≠ [] → transcription_ids ≠ [] → src_encodec 1 ≠ [] →
        nar_model_only_run bos sep eos instruction_ids transcription_ids src_encodec tgt0
          = Except.error "TypeError: can only concatenate list to list")
    ∧ ((instruction_ids = [] ∨ transcription_ids = [] ∨ src_encodec 1 = []) →
        nar_model_only_run bos sep eos instruction_ids transcription_ids src_encodec tgt0
          = Except.error
              "TypeError: nar_decode takes from 3 to 4 positional arguments but 5 were given") := by
  intro bos sep eos instruction_ids transcription_ids src_encodec tgt0
  have hpackempty : (instruction_ids = [] ∨ transcription_ids = [] ∨ src_encodec 1 = []) →
      pack_inputs_misused bos sep eos instruction_ids transcription_ids (src_encodec 1)
        = Except.ok [] := by
    intro hcase
    rcases hcase with h | h | h
    · rw [h]
      rfl
    · rw [h]
      unfold pack_inputs_misused
      rw [List.map_nil, List.zip_nil_left, List.zip_nil_right]
      rfl
    · rw [h]
      unfold pack_inputs_misused
      rw [List.map_nil, List.zip_nil_right, List.zip_nil_right]
      rfl
  have hconcat : instruction_ids ≠ [] → transcription_ids ≠ [] → src_encodec 1 ≠ [] →
      nar_model_only_run bos sep eos instruction_ids transcription_ids src_encodec tgt0
        = Except.error "TypeError: can only concatenate list to list" := by
    intro hi ht hs
    obtain ⟨i0, irest, hieq⟩ := List.exists_cons_of_ne_nil hi
    obtain ⟨t0, trest, hteq⟩ := List.exists_cons_of_ne_nil ht
    obtain ⟨s0, srest, hseq⟩ := List.exists_cons_of_ne_nil hs
    show (List.range 7).foldlM _ [tgt0] = _
    have h7 : List.range 7 = 0 :: [1, 2, 3, 4, 5, 6] := rfl
    rw [h7]
    refine except_foldlM_cons_error _ _ _ _ _ ?_
    show (do
      let _inputs ← pack_inputs_misused bos sep eos instruction_ids transcription_ids
        (src_encodec (0 + 1))
      if py_positional_call_raises nar_model_only_num_args nar_decode_num_params then
        Except.error
          "TypeError: nar_decode takes from 3 to 4 positional arguments but 5 were given"
      else
        Except.ok ([tgt0] ++ [[]]) : Except String (List (List Nat)))
      = Except.error "TypeError: can only concatenate list to list"
    have h01 : (0 : Nat) + 1 = 1 := rfl
    rw [h01, hieq, hteq, hseq, pack_inputs_misused_cons]
    rfl
  have harity : (instruction_ids = [] ∨ transcription_ids = [] ∨ src_encodec 1 = []) →
      nar_model_only_run bos sep eos instruction_ids transcription_ids src_encodec tgt0
        = Except.error
            "TypeError: nar_decode takes from 3 to 4 positional arguments but 5 were given" := by
    intro hcase
    show (List.range 7).foldlM _ [tgt0] = _
    have h7 : List.range 7 = 0 :: [1, 2, 3, 4, 5, 6] := rfl
    rw [h7]
    refine except_foldlM_cons_error _ _ _ _ _ ?_
    show (do
      let _inputs ← pack_inputs_misused bos sep eos instruction_ids transcription_ids
        (src_encodec (0 + 1))
      if py_positional_call_raises nar_model_only_num_args nar_decode_num_params then
        Except.error
          "TypeError: nar_decode takes from 3 to 4 positional arguments but 5 were given"
      else
        Except.ok ([tgt0] ++ [[]]) : Except String (List (List Nat)))
      = Except.error
          "TypeError: nar_decode takes from 3 to 4 positional arguments but 5 were given"
    have h01 : (0 : Nat) + 1 = 1 := rfl
    rw [h01, hpackempty hcase]
    rfl
  refine ⟨?_, hconcat, harity⟩
  intro res hok
  by_cases hi : instruction_ids = []
  · rw [harity (Or.inl hi)] at hok
    cases hok
  · by_cases ht : transcription_ids = []
    · rw [harity (Or.inr (Or.inl ht))] at hok
      cases hok
    · by_cases hs : src_encodec 1 = []
      · rw [harity (Or.inr (Or.inr hs))] at hok
        cases hok
      · rw [hconcat hi ht hs] at hok
        cases hok

/-- Embeds Python's `str.strip()` as used on `row['name']` and
`row['Instruction']` in `sox_data/14effects/main.py`: leading and trailing
whitespace characters are removed. -/
def py_strip (s : String) : String :=
  String.mk (((s.data.dropWhile Char.isWhitespace).reverse.dropWhile Char.isWhitespace).reverse)

/-- One chat message as built by `generate_messages` in
`sox_data/14effects/query.py`. -/
structure ChatMessage where
  role : String
  content : String
deriving DecidableEq

/-- Embeds `generate_messages` from `sox_data/14effects/query.py`: a system
message followed by one user message. -/
def generate_messages (system_message single_prompt : String) : List ChatMessage :=
  [⟨"system", system_message⟩, ⟨"user", single_prompt⟩]

/-- The paraphrase prompt template hard-coded in `sox_data/14effects/main.py`. -/
def paraphrase_template : String :=
  "Give me 10 diverse sentences with the same meaning as <instruction>."

/-- The system prompt hard-coded in `sox_data/14effects/main.py`. -/
def paraphrase_system_prompt : String :=
  "You are a helpful assistant for generating instructions."

/-- Embeds the per-row prompt construction in `sox_data/14effects/main.py`:
the stripped instruction is wrapped in double quotes and substituted into the
template. -/
def build_instruction (instruction : String) : String :=
  paraphrase_template.replace "<instruction>" ("\"" ++ py_strip instruction ++ "\"")

/-- The sampling parameters recorded by `handle_query` in
`sox_data/14effects/query.py` (`parameters = {"model": model, "n": n, "temp": temp}`). -/
structure QueryParams where
  model : String
  n : Nat
  temp : Rat
deriving DecidableEq

/-- The JSON record `handle_query` writes to the per-row response file: exactly
the keys `request` (the outgoing messages), `response` (the provider's
response, an opaque value of type `r`) and `params`. -/
structure QueryRecord (r : Type) where
  request : List ChatMessage
  response : r
  params : QueryParams

/-- Embeds `handle_query` from `sox_data/14effects/query.py`: it issues the
chat-completion request (the fallible external call `query_fn`), and on
success writes the three-field record to `result_path` (file systems are
association lists; `open(..., 'w+')` overwrite is modelled by consing, which
shadows any older entry for the same path) and returns the raw response.  If
the request raises, nothing is written and the exception propagates. -/
def handle_query {e r k : Type} (query_fn : List ChatMessage → Except e r)
    (messages : List ChatMessage) (model : String) (n : Nat) (temp : Rat)
    (result_path : k) (fs : List (k × QueryRecord r)) :
    Except e (r × List (k × QueryRecord r)) :=
  match query_fn messages with
  | Except.error err => Except.error err
  | Except.ok response =>
      Except.ok (response, (result_path, ⟨messages, response, ⟨model, n, temp⟩⟩) :: fs)

/-- The mutable state of the loop in `sox_data/14effects/main.py`:
`result_json` (name to paraphrase list), the `responses/<name>.json` files
written so far (keyed by name, since the path is determined by the name), and
the ghost list of names for which a chat-completion request was issued. -/
structure MainSt (r : Type) where
  cache : List (String × List String)
  fs : List (String × QueryRecord r)
  requested : List String

/-- The two ways `main` in `sox_data/14effects/main.py` terminates: the loop
completes and `result.json` is written with the final cache (`ok`), or some
iteration raises, the `except` branch writes `result.json` with whatever was
accumulated and calls `exit(0)` (`savedPartial`). -/
inductive MainResult (r : Type) where
  | ok (st : MainSt r)
  | savedPartial (st : MainSt r)

/-- One row of the prompt CSV read by `sox_data/14effects/main.py`. -/
structure CsvRow where
  name : String
  instruction : String
deriving DecidableEq

/-- Embeds the `try`-wrapped row loop of `main` in `sox_data/14effects/main.py`:
rows whose stripped name is already a key of `result_json` are skipped
(`if name in result_json: continue`); otherwise `handle_query` is called and,
on success, the parsed paraphrases (`get_instructions_from_response`, which
depends on `parse_sox_instruction` from the absent `utils.py` and is therefore
the abstract parameter `extract`) are stored under the name.  Any exception
aborts the loop and saves the accumulated cache. -/
def main_loop {e r : Type} (query_fn : List ChatMessage → Except e r)
    (extract : r → List String) (model : String) (n : Nat) (temp : Rat) :
    List CsvRow → MainSt r → MainResult r
  | [], st => MainResult.ok st
  | row :: rest, st =>
    let name := py_strip row.name
    if (st.cache.lookup name).isSome then
      main_loop query_fn extract model n temp rest st
    else
      match handle_query query_fn
          (generate_messages paraphrase_system_prompt (build_instruction row.instruction))
          model n temp name st.fs with
      | Except.error _ =>
          MainResult.savedPartial { st with requested := st.requested ++ [name] }
      | Except.ok (response, fs2) =>
          main_loop query_fn extract model n temp rest
            { cache := (name, extract response) :: st.cache,
              fs := fs2,
              requested := st.requested ++ [name] }

/-- The same loop restricted to runs in which no exception occurs: used to
describe the state accumulated by an error-free prefix of the CSV rows. -/
def run_rows_ok {e r : Type} (query_fn : List ChatMessage → Except e r)
    (extract : r → List String) (model : String) (n : Nat) (temp : Rat) :
    List CsvRow → MainSt r → Option (MainSt r)
  | [], st => some st
  | row :: rest, st =>
    let name := py_strip row.name
    if (st.cache.lookup name).isSome then
      run_rows_ok query_fn extract model n temp rest st
    else
      match handle_query query_fn
          (generate_messages paraphrase_system_prompt (build_instruction row.instruction))
          model n temp name st.fs with
      | Except.error _ => none
      | Except.ok (response, fs2) =>
          run_rows_ok query_fn extract model n temp rest
            { cache := (name, extract response) :: st.cache,
              fs := fs2,
              requested := st.requested ++ [name] }

/-- C4: if the chat-completion request of any row raises any exception (the
error value `err` is arbitrary and the conclusion does not depend on it, so no
exception kind is distinguished), `main` serializes exactly the cache
accumulated over the preceding rows and terminates; the failing row is not
retried and the remaining rows are never processed. -/
theorem main_saves_partial_on_any_error {e r : Type}
    (query_fn : List ChatMessage → Except e r) (extract : r → List String)
    (model : String) (n : Nat) (temp : Rat)
    (pre : List CsvRow) (row : CsvRow) (post : List CsvRow)
    (st0 st : MainSt r) (err : e)
    (hpre : run_rows_ok query_fn extract model n temp pre st0 = some st)
    (hmiss : (st.cache.lookup (py_strip row.name)).isSome = false)
    (hfail : query_fn (generate_messages paraphrase_system_prompt
        (build_instruction row.instruction)) = Except.error err) :
    main_loop query_fn extract model n temp (pre ++ row :: post) st0
      = MainResult.savedPartial { st with requested := st.requested ++ [py_strip row.name] } := by
  induction pre generalizing st0 with
  | nil =>
    simp only [run_rows_ok, Option.some.injEq] at hpre
    subst hpre
    simp only [List.nil_append, main_loop, hmiss, Bool.false_eq_true, if_false,
      handle_query, hfail]
  | cons p rest ih =>
    simp only [run_rows_ok] at hpre
    simp only [List.cons_append, main_loop]
    by_cases hskip : ((st0.cache.lookup (py_strip p.name)).isSome : Prop)
    · rw [if_pos hskip]
      rw [if_pos hskip] at hpre
      exact ih st0 hpre
    · rw [if_neg hskip]
      rw [if_neg hskip] at hpre
      unfold handle_query at hpre ⊢
      cases hq : query_fn (generate_messages paraphrase_system_prompt
          (build_instruction p.instruction)) with
      | error err2 =>
        rw [hq] at hpre
        cases hpre
      | ok response =>
        rw [hq] at hpre
        exact ih _ hpre

/-- C4 (witness): a single-row CSV whose request fails with a rate-limit
error: the loop saves the (empty) accumulated cache and terminates. -/
theorem main_saves_partial_on_any_error_witness :
    (run_rows_ok (fun (_ : List ChatMessage) => (Except.error "RateLimitError" : Except String Nat))
        (fun _ => []) "gpt-3.5-turbo-0301" 5 1 [] ⟨[], [], []⟩ = some ⟨[], [], []⟩)
    ∧ ((([] : List (String × List String)).lookup (py_strip "a")).isSome = false)
    ∧ ((fun (_ : List ChatMessage) => (Except.error "RateLimitError" : Except String Nat))
        (generate_messages paraphrase_system_prompt (build_instruction "do it"))
        = Except.error "RateLimitError")
    ∧ main_loop (fun (_ : List ChatMessage) => (Except.error "RateLimitError" : Except String Nat))
        (fun _ => []) "gpt-3.5-turbo-0301" 5 1 [⟨"a", "do it"⟩] ⟨[], [], []⟩
      = MainResult.savedPartial ⟨[], [], [py_strip "a"]⟩ :=
  ⟨rfl, rfl, rfl,
   main_saves_partial_on_any_error
     (fun (_ : List ChatMessage) => (Except.error "RateLimitError" : Except String Nat))
     (fun _ => []) "gpt-3.5-turbo-0301" 5 1 [] ⟨"a", "do it"⟩ [] ⟨[], [], []⟩ ⟨[], [], []⟩
     "RateLimitError" rfl rfl rfl⟩

/-- Helper: association-list lookup skips a head entry with a different key. -/
theorem lookup_cons_ne {k b : Type} [BEq k] [LawfulBEq k]
    (c : List (k × b)) (name key : k) (v : b) (h : key ≠ name) :
    ((name, v) :: c).lookup key = c.lookup key := by
  have hbeq : (key == name) = false := beq_eq_false_iff_ne.mpr h
  simp [List.lookup, hbeq]

/-- Helper: a completed run leaves every key already cached at the start
unchanged, because only names absent from the cache are ever inserted. -/
theorem main_loop_cache_preserved {e r : Type}
    (query_fn : List ChatMessage → Except e r) (extract : r → List String)
    (model : String) (n : Nat) (temp : Rat) :
    ∀ (rows : List CsvRow) (st stf : MainSt r),
    main_loop query_fn extract model n temp rows st = MainResult.ok stf →
    ∀ key, (st.cache.lookup key).isSome →
      stf.cache.lookup key = st.cache.lookup key := by
  intro rows
  induction rows with
  | nil =>
    intro st stf hrun key _
    simp only [main_loop, MainResult.ok.injEq] at hrun
    rw [hrun]
  | cons row rest ih =>
    intro st stf hrun key hsome
    simp only [main_loop] at hrun
    by_cases hskip : ((st.cache.lookup (py_strip row.name)).isSome : Prop)
    · rw [if_pos hskip] at hrun
      exact ih st stf hrun key hsome
    · rw [if_neg hskip] at hrun
      unfold handle_query at hrun
      cases hq : query_fn (generate_messages paraphrase_system_prompt
          (build_instruction row.instruction)) with
      | error err => rw [hq] at hrun; cases hrun
      | ok response =>
        rw [hq] at hrun
        have hne : key ≠ py_strip row.name := by
          intro hkey
          rw [hkey] at hsome
          rw [Option.isSome_iff_exists] at hsome
          obtain ⟨v, hv⟩ := hsome
          rw [hv] at hskip
          exact hskip rfl
        have := ih _ stf hrun key (by
          show (((py_strip row.name, extract response) :: st.cache).lookup key).isSome
          rw [lookup_cons_ne _ _ _ _ hne]
          exact hsome)
        rw [this]
        exact lookup_cons_ne _ _ _ _ hne

/-- Helper: the set of requested names only grows during a completed run. -/
theorem main_loop_requested_mono {e r : Type}
    (query_fn : List ChatMessage → Except e r) (extract : r → List String)
    (model : String) (n : Nat) (temp : Rat) :
    ∀ (rows : List CsvRow) (st stf : MainSt r),
    main_loop query_fn extract model n temp rows st = MainResult.ok stf →
    ∀ key ∈ st.requested, key ∈ stf.requested := by
  intro rows
  induction rows with
  | nil =>
    intro st stf hrun key hk
    simp only [main_loop, MainResult.ok.injEq] at hrun
    rw [← hrun]
    exact hk
  | cons row rest ih =>
    intro st stf hrun key hk
    simp only [main_loop] at hrun
    by_cases hskip : ((st.cache.lookup (py_strip row.name)).isSome : Prop)
    · rw [if_pos hskip] at hrun
      exact ih st stf hrun key hk
    · rw [if_neg hskip] at hrun
      unfold handle_query at hrun
      cases hq : query_fn (generate_messages paraphrase_system_prompt
          (build_instruction row.instruction)) with
      | error err => rw [hq] at hrun; cases hrun
      | ok response =>
        rw [hq] at hrun
        exact ih _ stf hrun key (by
          show key ∈ st.requested ++ [py_strip row.name]
          exact List.mem_append_left _ hk)

/-- Helper: a name requested during a completed run was either requested
before the run or absent from the cache when the run started. -/
theorem main_loop_requested_from {e r : Type}
    (query_fn : List ChatMessage → Except e r) (extract : r → List String)
    (model : String) (n : Nat) (temp : Rat) :
    ∀ (rows : List CsvRow) (st stf : MainSt r),
    main_loop query_fn extract model n temp rows st = MainResult.ok stf →
    ∀ key ∈ stf.requested, key ∈ st.requested ∨ st.cache.lookup key = none := by
  intro rows
  induction rows with
  | nil =>
    intro st stf hrun key hk
    simp only [main_loop, MainResult.ok.injEq] at hrun
    rw [← hrun] at hk
    exact Or.inl hk
  | cons row rest ih =>
    intro st stf hrun key hk
    simp only [main_loop] at hrun
    by_cases hskip : ((st.cache.lookup (py_strip row.name)).isSome : Prop)
    · rw [if_pos hskip] at hrun
      exact ih st stf hrun key hk
    · rw [if_neg hskip] at hrun
      unfold handle_query at hrun
      cases hq : query_fn (generate_messages paraphrase_system_prompt
          (build_instruction row.instruction)) with
      | error err => rw [hq] at hrun; cases hrun
      | ok response =>
        rw [hq] at hrun
        rcases ih _ stf hrun key hk with hmem | hnone
        · rcases List.mem_append.mp hmem with hmem | hmem
          · exact Or.inl hmem
          · rcases List.mem_singleton.mp hmem with rfl
            right
            rw [Option.isSome_iff_exists] at hskip
            push_neg at hskip
            cases hcase : st.cache.lookup (py_strip row.name) with
            | none => rfl
            | some v => exact absurd hcase (hskip v)
        · right
          by_cases hne : key = py_strip row.name
          · rw [hne]
            cases hcase : st.cache.lookup (py_strip row.name) with
            | none => rfl
            | some v =>
              rw [Option.isSome_iff_exists] at hskip
              push_neg at hskip
              exact absurd hcase (hskip v)
          · rw [← lookup_cons_ne st.cache (py_strip row.name) key (extract response) hne]
            exact hnone

/-- Helper: after a completed run, every processed row's stripped name has a
cache entry, and the name was requested during the run unless it was already
cached when the run reached it. -/
theorem main_loop_row_handled {e r : Type}
    (query_fn : List ChatMessage → Except e r) (extract : r → List String)
    (model : String) (n : Nat) (temp : Rat) :
    ∀ (rows : List CsvRow) (st stf : MainSt r),
    main_loop query_fn extract model n temp rows st = MainResult.ok stf →
    ∀ row ∈ rows, (stf.cache.lookup (py_strip row.name)).isSome
      ∧ (py_strip row.name ∈ stf.requested ∨ (st.cache.lookup (py_strip row.name)).isSome) := by
  intro rows
  induction rows with
  | nil =>
    intro st stf _ row hrow
    cases hrow
  | cons row0 rest ih =>
    intro st stf hrun row hrow
    simp only [main_loop] at hrun
    by_cases hskip : ((st.cache.lookup (py_strip row0.name)).isSome : Prop)
    · rw [if_pos hskip] at hrun
      rcases List.mem_cons.mp hrow with rfl | hrow
      · constructor
        · have := main_loop_cache_preserved query_fn extract model n temp rest st stf hrun
            (py_strip row.name) hskip
          rw [this]
          exact hskip
        · exact Or.inr hskip
      · exact ih st stf hrun row hrow
    · rw [if_neg hskip] at hrun
      unfold handle_query at hrun
      cases hq : query_fn (generate_messages paraphrase_system_prompt
          (build_instruction row0.instruction)) with
      | error err => rw [hq] at hrun; cases hrun
      | ok response =>
        rw [hq] at hrun
        set st2 : MainSt r :=
          { cache := (py_strip row0.name, extract response) :: st.cache,
            fs := (py_strip row0.name,
              ⟨generate_messages paraphrase_system_prompt (build_instruction row0.instruction),
                response, ⟨model, n, temp⟩⟩) :: st.fs,
            requested := st.requested ++ [py_strip row0.name] } with hst2
        have hsome2 : (st2.cache.lookup (py_strip row0.name)).isSome := by
          simp [hst2, List.lookup]
        rcases List.mem_cons.mp hrow with rfl | hrow
        · constructor
          · have := main_loop_cache_preserved query_fn extract model n temp rest st2 stf hrun
              (py_strip row.name) hsome2
            rw [this]
            exact hsome2
          · left
            refine main_loop_requested_mono query_fn extract model n temp rest st2 stf hrun
              (py_strip row.name) ?_
            simp [hst2]
        · have hres := ih st2 stf hrun row hrow
          refine ⟨hres.1, ?_⟩
          rcases hres.2 with hmem | hsome
          · exact Or.inl hmem
          · by_cases hne : py_strip row.name = py_strip row0.name
            · left
              rw [hne]
              refine main_loop_requested_mono query_fn extract model n temp rest st2 stf hrun
                (py_strip row0.name) ?_
              simp [hst2]
            · right
              rw [hst2] at hsome
              simp only at hsome
              rw [lookup_cons_ne st.cache (py_strip row0.name) (py_strip row.name)
                (extract response) hne] at hsome
              exact hsome

/-- C6: when the script is resumed with a loaded result cache and the run
completes, every CSV row whose stripped name is already a key of the loaded
cache is skipped (no chat-completion request is issued for it, and its cached
paraphrase list is unchanged), while rows whose names are absent are queried
and added to the cache. -/
theorem resume_skips_cached_rows {e r : Type}
    (query_fn : List ChatMessage → Except e r) (extract : r → List String)
    (model : String) (n : Nat) (temp : Rat)
    (rows : List CsvRow) (cache0 : List (String × List String))
    (fs0 : List (String × QueryRecord r)) (stf : MainSt r)
    (hrun : main_loop query_fn extract model n temp rows ⟨cache0, fs0, []⟩ = MainResult.ok stf)
    (row : CsvRow) (hrow : row ∈ rows) :
    ((cache0.lookup (py_strip row.name)).isSome →
      py_strip row.name ∉ stf.requested
      ∧ stf.cache.lookup (py_strip row.name) = cache0.lookup (py_strip row.name))
    ∧ ((cache0.lookup (py_strip row.name)).isNone →
      py_strip row.name ∈ stf.requested
      ∧ (stf.cache.lookup (py_strip row.name)).isSome) := by
  constructor
  · intro hsome
    constructor
    · intro hmem
      rcases main_loop_requested_from query_fn extract model n temp rows _ stf hrun
        (py_strip row.name) hmem with hin | hnone
      · cases hin
      · rw [hnone] at hsome
        cases hsome
    · exact main_loop_cache_preserved query_fn extract model n temp rows _ stf hrun
        (py_strip row.name) hsome
  · intro hnone
    have hres := main_loop_row_handled query_fn extract model n temp rows _ stf hrun row hrow
    refine ⟨?_, hres.1⟩
    rcases hres.2 with hmem | hsome
    · exact hmem
    · rw [Option.isNone_iff_eq_none] at hnone
      show py_strip row.name ∈ stf.requested
      have : (cache0.lookup (py_strip row.name)).isSome := hsome
      rw [hnone] at this
      cases this

/-- C6 (witness): a resumed run over one row whose name is already cached: the
run completes without touching the cache and issues no request. -/
theorem resume_skips_cached_rows_witness :
    (main_loop (fun (_ : List ChatMessage) => (Except.ok (0 : Nat) : Except String Nat))
        (fun _ => ["p"]) "gpt-3.5-turbo-0301" 5 1 [⟨"a", "x"⟩] ⟨[("a", ["old"])], [], []⟩
      = MainResult.ok ⟨[("a", ["old"])], [], []⟩)
    ∧ ((⟨"a", "x"⟩ : CsvRow) ∈ [(⟨"a", "x"⟩ : CsvRow)])
    ∧ ((([("a", ["old"])] : List (String × List String)).lookup (py_strip "a")).isSome = true)
    ∧ (py_strip "a" ∉ ([] : List String)
      ∧ ([("a", ["old"])] : List (String × List String)).lookup (py_strip "a")
        = ([("a", ["old"])] : List (String × List String)).lookup (py_strip "a")) := by
  refine ⟨rfl, by simp, rfl, ?_⟩
  exact (resume_skips_cached_rows
    (fun (_ : List ChatMessage) => (Except.ok (0 : Nat) : Except String Nat))
    (fun _ => ["p"]) "gpt-3.5-turbo-0301" 5 1 [⟨"a", "x"⟩] [("a", ["old"])] []
    ⟨[("a", ["old"])], [], []⟩ rfl ⟨"a", "x"⟩ (by simp)).1 rfl

/-- Embeds the loop of `main` in `sox_data/14effects/query.py`: the messages
are processed with their enumeration index, the per-index response file is
`responses/<idx>.json` (keyed here by the index), and an iteration whose
response file already exists is skipped without issuing a request
(`if os.path.isfile(result_path): continue`); otherwise `handle_query` is
called, which writes the file.  This loop has no exception handler, so a
failing request propagates. -/
def query_main_loop {e r : Type} (query_fn : List ChatMessage → Except e r)
    (model : String) (n : Nat) (temp : Rat) :
    List (Nat × List ChatMessage) → List (Nat × QueryRecord r) → List Nat →
    Except e (List (Nat × QueryRecord r) × List Nat)
  | [], fs, requested => Except.ok (fs, requested)
  | (idx, messages) :: rest, fs, requested =>
    if (fs.lookup idx).isSome then
      query_main_loop query_fn model n temp rest fs requested
    else
      match handle_query query_fn messages model n temp idx fs with
      | Except.error err => Except.error err
      | Except.ok (_, fs2) =>
          query_main_loop query_fn model n temp rest fs2 (requested ++ [idx])

/-- Helper: in a completed `query.py` run, an index whose response file exists
at the start is never requested and its file is left unchanged. -/
theorem query_main_loop_preserves {e r : Type}
    (query_fn : List ChatMessage → Except e r) (model : String) (n : Nat) (temp : Rat) :
    ∀ (items : List (Nat × List ChatMessage)) (fs : List (Nat × QueryRecord r))
      (requested : List Nat) (fsf : List (Nat × QueryRecord r)) (reqf : List Nat) (idx : Nat),
    query_main_loop query_fn model n temp items fs requested = Except.ok (fsf, reqf) →
    (fs.lookup idx).isSome → idx ∉ requested →
    idx ∉ reqf ∧ fsf.lookup idx = fs.lookup idx := by
  intro items
  induction items with
  | nil =>
    intro fs requested fsf reqf idx hrun hsome hnin
    simp only [query_main_loop, Except.ok.injEq, Prod.mk.injEq] at hrun
    rw [← hrun.1, ← hrun.2]
    exact ⟨hnin, rfl⟩
  | cons item rest ih =>
    intro fs requested fsf reqf idx hrun hsome hnin
    obtain ⟨idx2, messages⟩ := item
    simp only [query_main_loop] at hrun
    by_cases hskip : ((fs.lookup idx2).isSome : Prop)
    · rw [if_pos hskip] at hrun
      exact ih fs requested fsf reqf idx hrun hsome hnin
    · rw [if_neg hskip] at hrun
      unfold handle_query at hrun
      cases hq : query_fn messages with
      | error err => rw [hq] at hrun; cases hrun
      | ok response =>
        rw [hq] at hrun
        have hne : idx ≠ idx2 := by
          intro hcon
          rw [hcon] at hsome
          exact hskip hsome
        have hsome2 :
            (((idx2, (⟨messages, response, ⟨model, n, temp⟩⟩ : QueryRecord r)) :: fs).lookup
              idx).isSome := by
          rw [lookup_cons_ne fs idx2 idx _ hne]
          exact hsome
        have hnin2 : idx ∉ requested ++ [idx2] := by
          intro hcon
          rcases List.mem_append.mp hcon with hcon | hcon
          · exact hnin hcon
          · exact hne (List.mem_singleton.mp hcon)
        obtain ⟨h1, h2⟩ := ih _ _ fsf reqf idx hrun hsome2 hnin2
        refine ⟨h1, ?_⟩
        rw [h2]
        exact lookup_cons_ne fs idx2 idx _ hne

/-- C7: for every successfully queried row, `handle_query` persists at the
given path a record with exactly the keys `request` (the outgoing messages),
`response` (the provider's response) and `params` (model, n, temp) and returns
the response; and in the `query.py` driver an already-present per-row response
file prevents the request from being re-issued and is left unchanged. -/
theorem handle_query_record_and_skip {e r : Type}
    (query_fn : List ChatMessage → Except e r) (model : String) (n : Nat) (temp : Rat) :
    (∀ (k : Type) (messages : List ChatMessage) (path : k)
        (fs : List (k × QueryRecord r)) (resp : r),
      query_fn messages = Except.ok resp →
      handle_query query_fn messages model n temp path fs
        = Except.ok (resp, (path, ⟨messages, resp, ⟨model, n, temp⟩⟩) :: fs))
    ∧ (∀ (items : List (Nat × List ChatMessage)) (fs0 : List (Nat × QueryRecord r))
        (fsf : List (Nat × QueryRecord r)) (reqf : List Nat) (idx : Nat),
      query_main_loop query_fn model n temp items fs0 [] = Except.ok (fsf, reqf) →
      (fs0.lookup idx).isSome →
      idx ∉ reqf ∧ fsf.lookup idx = fs0.lookup idx) := by
  constructor
  · intro k messages path fs resp hq
    unfold handle_query
    rw [hq]
  · intro items fs0 fsf reqf idx hrun hsome
    exact query_main_loop_preserves query_fn model n temp items fs0 [] fsf reqf idx hrun hsome
      (List.not_mem_nil idx)

/-- C7 (witness): a successful call writing its three-field record, and a
one-item `query.py` run whose index 0 already has a response file: the item is
skipped and the file is unchanged. -/
theorem handle_query_record_and_skip_witness :
    ((fun (_ : List ChatMessage) => (Except.ok (0 : Nat) : Except String Nat))
        (generate_messages "s" "u") = Except.ok 0)
    ∧ (handle_query (fun (_ : List ChatMessage) => (Except.ok (0 : Nat) : Except String Nat))
        (generate_messages "s" "u") "gpt-3.5-turbo-0301" 5 1 (7 : Nat) []
      = Except.ok (0, [(7, ⟨generate_messages "s" "u", 0, ⟨"gpt-3.5-turbo-0301", 5, 1⟩⟩)]))
    ∧ (query_main_loop (fun (_ : List ChatMessage) => (Except.ok (0 : Nat) : Except String Nat))
        "gpt-3.5-turbo-0301" 5 1 [(0, generate_messages "s" "u")]
        [(0, ⟨generate_messages "s" "u", 0, ⟨"gpt-3.5-turbo-0301", 5, 1⟩⟩)] []
      = Except.ok ([(0, ⟨generate_messages "s" "u", 0, ⟨"gpt-3.5-turbo-0301", 5, 1⟩⟩)], []))
    ∧ (([(0, (⟨generate_messages "s" "u", 0,
          ⟨"gpt-3.5-turbo-0301", 5, 1⟩⟩ : QueryRecord Nat))].lookup 0).isSome = true)
    ∧ ((0 : Nat) ∉ ([] : List Nat)
      ∧ [(0, (⟨generate_messages "s" "u", 0,
            ⟨"gpt-3.5-turbo-0301", 5, 1⟩⟩ : QueryRecord Nat))].lookup 0
        = [(0, (⟨generate_messages "s" "u", 0,
            ⟨"gpt-3.5-turbo-0301", 5, 1⟩⟩ : QueryRecord Nat))].lookup 0) := by
  refine ⟨rfl, ?_, rfl, rfl, ?_⟩
  · exact (handle_query_record_and_skip
      (fun (_ : List ChatMessage) => (Except.ok (0 : Nat) : Except String Nat))
      "gpt-3.5-turbo-0301" 5 1).1 Nat (generate_messages "s" "u") 7 [] 0 rfl
  · exact (handle_query_record_and_skip
      (fun (_ : List ChatMessage) => (Except.ok (0 : Nat) : Except String Nat))
      "gpt-3.5-turbo-0301" 5 1).2 [(0, generate_messages "s" "u")] _ _ _ 0 rfl rfl

/-- C8 (witness): the amended theorem's non-empty case applied to a concrete
input: the first refinement iteration fails inside the misused `pack_inputs`
call. -/
theorem nar_model_only_type_error_witness :
    (([5] : List Int) ≠ [] ∧ ([6] : List Int) ≠ []
      ∧ ((fun (_ : Nat) => [(7 : Int)]) 1) ≠ [])
    ∧ nar_model_only_run 0 2 2 [5] [6] (fun _ => [7]) [1]
        = Except.error "TypeError: can only concatenate list to list" := by
  refine ⟨⟨by decide, by decide, by decide⟩, ?_⟩
  exact (nar_model_only_type_error 0 2 2 [5] [6] (fun _ => [7]) [1]).2.1
    (by decide) (by decide) (by decide)
